import Mathlib

/-
Verification development for the price-feed server.

The TypeScript sources are shallowly embedded:
- JavaScript strings are modelled as lists of characters (JStr).
- JavaScript Map objects are modelled as association lists with the
  standard get/set/delete operations (first-match semantics, set replaces
  in place, delete removes the key).
- Callbacks (function references) are modelled by natural-number
  identifiers: JavaScript compares listeners by reference identity.
- The WebSocket is modelled by an Option Bool field: none means the ws
  field is undefined, some b means a socket object exists and b records
  whether its readyState is OPEN.
- Messages written to the socket are accumulated in a sent list.
- The FeedClient state additionally carries two ghost logs, registerCalls
  and unregisterCalls, that record every invocation of
  registerPriceFeedCallback / unregisterPriceFeedCallback (keyed by the
  normalized identifier); they are appended on entry and never read by the
  code itself, so they do not affect behaviour: they only let theorems
  count upstream calls.
-/

namespace PriceFeed

/-- JavaScript strings, modelled as lists of characters. -/
abbrev JStr := List Char

/-- Embedding of a Lean string literal as a JStr. -/
def jsStr (s : String) : JStr := s.data

/-- Model of JavaScript String.prototype.toLowerCase (ASCII-relevant part). -/
def strLower (s : JStr) : JStr := s.map Char.toLower

/-- Source: feed_client.ts normalizeFeedId.
Lowercase the id, then strip a single leading "0x" marker. -/
def normalizeFeedId (feedId : JStr) : JStr :=
  let normalized := strLower feedId
  if normalized.take 2 = ['0', 'x'] then normalized.drop 2 else normalized

section MapModel

variable {κ β : Type} [DecidableEq κ]

/-- JavaScript Map.get: first matching key. -/
def mapGet : List (κ × β) → κ → Option β
  | [], _ => none
  | (k', v) :: rest, k => if k' = k then some v else mapGet rest k

/-- JavaScript Map.set: replace the value in place, or append a new entry. -/
def mapSet : List (κ × β) → κ → β → List (κ × β)
  | [], k, v => [(k, v)]
  | (k', v') :: rest, k, v =>
      if k' = k then (k, v) :: rest else (k', v') :: mapSet rest k v

/-- JavaScript Map.delete: remove the entry for the key. -/
def mapDel : List (κ × β) → κ → List (κ × β)
  | [], _ => []
  | (k', v) :: rest, k =>
      if k' = k then mapDel rest k else (k', v) :: mapDel rest k

end MapModel

/-- Model of Array.prototype: indexOf followed by splice(idx, 1),
i.e. removal of the first occurrence (no-op when absent). -/
def eraseFirst : List Nat → Nat → List Nat
  | [], _ => []
  | y :: rest, x => if y = x then rest else y :: eraseFirst rest x

/-- JavaScript Set.add: append unless already present. -/
def setAdd (s : List Nat) (x : Nat) : List Nat :=
  if x ∈ s then s else s ++ [x]

/-- JavaScript Set.delete on a duplicate-free list: drop the element. -/
def setDelete (s : List Nat) (x : Nat) : List Nat :=
  s.filter (fun y => decide (y ≠ x))

/-- Messages written to the upstream WebSocket. -/
inductive WireMsg
  | subscribeIds (ids : List JStr)
  | unsubscribeIds (ids : List JStr)
deriving DecidableEq, Repr

/-- State of FeedClient (PerpSdk/src/feed/feed_client.ts).
ws: none models the ws field being undefined; some b models a socket
whose readyState is OPEN exactly when b is true.
registerCalls and unregisterCalls are ghost logs of method invocations. -/
structure FeedClient where
  ws : Option Bool
  callbacks : List (JStr × List Nat)
  reconnectAttempts : Nat
  sent : List WireMsg
  registerCalls : List (JStr × Nat)
  unregisterCalls : List (JStr × Nat)
deriving DecidableEq, Repr

/-- Source constant maxReconnectAttempts = 5. -/
def maxReconnectAttempts : Nat := 5

/-- Source constant reconnectDelay = 1000 (ms). -/
def reconnectDelay : Nat := 1000

/-- Source: isConnected() — ws is defined and its readyState is OPEN. -/
def isConnected (fc : FeedClient) : Bool :=
  decide (fc.ws = some true)

/-- Source: subscribeToPriceFeeds — returns early unless the socket is
open; otherwise re-normalizes the ids and sends a subscribe message. -/
def subscribeToPriceFeeds (fc : FeedClient) (feedIds : List JStr) : FeedClient :=
  if fc.ws = some true then
    { fc with sent := fc.sent ++ [WireMsg.subscribeIds (feedIds.map normalizeFeedId)] }
  else fc

/-- Source: unsubscribeFromPriceFeeds — returns early unless the socket is
open; otherwise re-normalizes the ids and sends an unsubscribe message. -/
def unsubscribeFromPriceFeeds (fc : FeedClient) (feedIds : List JStr) : FeedClient :=
  if fc.ws = some true then
    { fc with sent := fc.sent ++ [WireMsg.unsubscribeIds (feedIds.map normalizeFeedId)] }
  else fc

/-- Source: registerPriceFeedCallback(feedId, callback).
Normalizes the id, creates an empty listener array when absent, pushes the
callback, and when the array length just became 1 while connected, sends
the upstream subscribe. The ghost registerCalls log records the call. -/
def registerPriceFeedCallback (fc : FeedClient) (feedId : JStr) (callback : Nat) :
    FeedClient :=
  let id := normalizeFeedId feedId
  let fc := { fc with registerCalls := fc.registerCalls ++ [(id, callback)] }
  let fc :=
    if (mapGet fc.callbacks id).isNone then
      { fc with callbacks := mapSet fc.callbacks id [] }
    else fc
  let cbs := ((mapGet fc.callbacks id).getD []) ++ [callback]
  let fc := { fc with callbacks := mapSet fc.callbacks id cbs }
  if cbs.length = 1 ∧ isConnected fc = true then
    subscribeToPriceFeeds fc [id]
  else fc

/-- Source: unregisterPriceFeedCallback(feedId, callback).
Normalizes the id; returns when no listener array exists; removes the
first occurrence of the callback; when the array became empty while
connected, sends the upstream unsubscribe and deletes the id. The ghost
unregisterCalls log records the call. -/
def unregisterPriceFeedCallback (fc : FeedClient) (feedId : JStr) (callback : Nat) :
    FeedClient :=
  let id := normalizeFeedId feedId
  let fc := { fc with unregisterCalls := fc.unregisterCalls ++ [(id, callback)] }
  match mapGet fc.callbacks id with
  | none => fc
  | some cbs =>
      let cbs := eraseFirst cbs callback
      let fc := { fc with callbacks := mapSet fc.callbacks id cbs }
      if cbs.length = 0 ∧ isConnected fc = true then
        let fc := unsubscribeFromPriceFeeds fc [id]
        { fc with callbacks := mapDel fc.callbacks id }
      else fc

/-- Source: handlePriceUpdate — normalize the inbound id, look up the
listener array and, when non-empty, invoke every listener in order. The
returned list is the sequence of listener invocations the dispatch makes. -/
def dispatchTargets (fc : FeedClient) (rawId : JStr) : List Nat :=
  let feedId := normalizeFeedId rawId
  match mapGet fc.callbacks feedId with
  | some cbs => if cbs.length > 0 then cbs else []
  | none => []

/-- Source: the ws open handler in listenForPriceUpdates — the socket is
now open, the attempt counter is reset, and when any feed ids are
registered they are re-subscribed. -/
def onOpen (fc : FeedClient) : FeedClient :=
  let fc := { fc with ws := some true, reconnectAttempts := 0 }
  let feedIds := fc.callbacks.map Prod.fst
  if feedIds.length > 0 then subscribeToPriceFeeds fc feedIds else fc

/-- Source: attemptReconnect — when attempts are exhausted, nothing is
scheduled; otherwise the counter is incremented and a retry is scheduled
after reconnectDelay * 2 ^ (attempt - 1) milliseconds. The second
component is the scheduled delay, none when no retry is scheduled. -/
def attemptReconnect (fc : FeedClient) : FeedClient × Option Nat :=
  if fc.reconnectAttempts ≥ maxReconnectAttempts then (fc, none)
  else
    let fc := { fc with reconnectAttempts := fc.reconnectAttempts + 1 }
    (fc, some (reconnectDelay * 2 ^ (fc.reconnectAttempts - 1)))

/-- Source: FeedClient.close — when a socket exists, close it and set the
ws field to undefined. The callbacks map is not touched. -/
def close (fc : FeedClient) : FeedClient :=
  match fc.ws with
  | some _ => { fc with ws := none }
  | none => fc

/-- Source: the ws close handler in listenForPriceUpdates — fires when the
socket closes (including after close()) and calls attemptReconnect. -/
def onSocketClose (fc : FeedClient) : FeedClient × Option Nat :=
  attemptReconnect fc

/-- Source: getLatestPriceUpdates — the HTTP snapshot URL is built from
the feed ids exactly as passed, joined with the query separator; no
normalization is applied. -/
def getLatestPriceUpdatesUrl (feedIds : List JStr) : JStr :=
  jsStr "https://hermes.pyth.network/v2/updates/price/latest?ids[]=" ++
    List.intercalate (jsStr "&ids[]=") feedIds

/-- Handle returned by PriceFeedService.subscribeToPair: the unsubscribe
closure captures the pair, the resolved feed id and the consumer callback. -/
structure Handle where
  pair : JStr
  feedId : JStr
  callback : Nat
deriving DecidableEq, Repr

/-- State of PriceFeedService (src/services/feedClient.ts).
subscriptions maps a pair to its Set of consumer callbacks (insertion
order, duplicate-free by Set semantics); callbacks maps a pair to the
single pyth callback closure registered with the FeedClient (closures are
modelled by identifiers allocated from nextCallbackId); registry models
the external pairService.getFeedId mapping, loaded before use and never
modified by this service. -/
structure PriceFeedService where
  feedClient : Option FeedClient
  subscriptions : List (JStr × List Nat)
  callbacks : List (JStr × Nat)
  connected : Bool
  nextCallbackId : Nat
  registry : List (JStr × JStr)
deriving DecidableEq, Repr

/-- Error string thrown when the service is not connected. -/
def errNotConnected : JStr := jsStr "FeedClient not connected"

/-- Error string prefixed to an unsupported pair name. -/
def errUnsupported : JStr := jsStr "Unsupported pair: "

/-- Source: PriceFeedService.subscribeToPair(pair, callback).
Throws when the feed client is missing or the service is not connected;
resolves the pair through the registry (throws when unknown); adds the
consumer callback to the pair's Set; on the first subscription for the
pair allocates the pyth dispatch closure, stores it and registers it with
the FeedClient; returns the new state and the unsubscribe handle. -/
def subscribeToPair (svc : PriceFeedService) (pair : JStr) (callback : Nat) :
    Except JStr (PriceFeedService × Handle) :=
  if svc.feedClient.isNone ∨ svc.connected = false then
    Except.error errNotConnected
  else
    match mapGet svc.registry pair with
    | none => Except.error (errUnsupported ++ pair)
    | some feedId =>
        let svc :=
          if (mapGet svc.subscriptions pair).isNone then
            { svc with subscriptions := mapSet svc.subscriptions pair [] }
          else svc
        let svc :=
          { svc with
              subscriptions :=
                mapSet svc.subscriptions pair
                  (setAdd ((mapGet svc.subscriptions pair).getD []) callback) }
        let svc :=
          match mapGet svc.callbacks pair with
          | some _ => svc
          | none =>
              let pcb := svc.nextCallbackId
              let svc :=
                { svc with
                    nextCallbackId := pcb + 1,
                    callbacks := mapSet svc.callbacks pair pcb }
              { svc with
                  feedClient :=
                    svc.feedClient.map
                      (fun fc => registerPriceFeedCallback fc feedId pcb) }
        Except.ok (svc, ⟨pair, feedId, callback⟩)

/-- Source: the unsubscribe closure returned by subscribeToPair.
Re-reads the pair's Set; deletes the consumer; when the Set became empty,
deletes the pair, unregisters the stored pyth callback from the
FeedClient (optional chaining: no-op when the client is gone) and deletes
the stored callback. -/
def runUnsubscribe (svc : PriceFeedService) (h : Handle) : PriceFeedService :=
  match mapGet svc.subscriptions h.pair with
  | none => svc
  | some cbs =>
      let cbs := setDelete cbs h.callback
      let svc := { svc with subscriptions := mapSet svc.subscriptions h.pair cbs }
      if cbs.length = 0 then
        let svc := { svc with subscriptions := mapDel svc.subscriptions h.pair }
        match mapGet svc.callbacks h.pair with
        | none => svc
        | some pcb =>
            let svc :=
              { svc with
                  feedClient :=
                    svc.feedClient.map
                      (fun fc => unregisterPriceFeedCallback fc h.feedId pcb) }
            { svc with callbacks := mapDel svc.callbacks h.pair }
      else svc

/-- Consumer set currently registered for a pair (empty when absent). -/
def consumersOf (svc : PriceFeedService) (pair : JStr) : List Nat :=
  (mapGet svc.subscriptions pair).getD []

/-- Number of registerPriceFeedCallback invocations recorded for a feed id
(the ghost log stores identifiers in normalized form). -/
def registerCallsFor (svc : PriceFeedService) (feedId : JStr) : Nat :=
  match svc.feedClient with
  | none => 0
  | some fc =>
      (fc.registerCalls.filter (fun e => decide (e.1 = normalizeFeedId feedId))).length

/-- Number of unregisterPriceFeedCallback invocations recorded for a feed id
(the ghost log stores identifiers in normalized form). -/
def unregisterCallsFor (svc : PriceFeedService) (feedId : JStr) : Nat :=
  match svc.feedClient with
  | none => 0
  | some fc =>
      (fc.unregisterCalls.filter (fun e => decide (e.1 = normalizeFeedId feedId))).length

/-- Session state tracked per connected client (src/websocket/wsHandler.ts). -/
structure ClientState where
  id : Nat
  subscribedPairs : List JStr
deriving DecidableEq, Repr

/-- State of WebSocketHandler: the shared PriceFeedService, the stored
unsubscribe closures keyed by (client id, pair), and a ghost log of every
closure invocation (appended when a stored handle is called). -/
structure WSHandler where
  svc : PriceFeedService
  unsubscribeFunctions : List ((Nat × JStr) × Handle)
  invoked : List Handle
deriving DecidableEq, Repr

/-- One iteration of the forEach loop in handleDisconnect: look up the
stored unsubscribe closure for (client id, pair); when present, invoke it
and delete the key. -/
def disconnectStep (w : WSHandler) (clientId : Nat) (pair : JStr) : WSHandler :=
  match mapGet w.unsubscribeFunctions (clientId, pair) with
  | none => w
  | some h =>
      { svc := runUnsubscribe w.svc h,
        unsubscribeFunctions := mapDel w.unsubscribeFunctions (clientId, pair),
        invoked := w.invoked ++ [h] }

/-- Iterate disconnectStep over a list of pairs for one client id. -/
def disconnectAll (clientId : Nat) (w : WSHandler) (ps : List JStr) : WSHandler :=
  ps.foldl (fun w p => disconnectStep w clientId p) w

/-- Source: WebSocketHandler.handleDisconnect — iterate over the client's
subscribed pairs, invoking and removing each stored unsubscribe closure. -/
def handleDisconnect (w : WSHandler) (client : ClientState) : WSHandler :=
  disconnectAll client.id w client.subscribedPairs

/-- A canonical identifier: already lower-case and carrying no 0x marker. -/
def isCanonical (c : JStr) : Prop :=
  strLower c = c ∧ c.take 2 ≠ ['0', 'x']

/-- A casing or 0x-prefix variant of a canonical identifier: lowercasing
it yields either the identifier itself or the identifier with a leading
0x marker. -/
def isVariantOf (x c : JStr) : Prop :=
  strLower x = c ∨ strLower x = '0' :: 'x' :: c

/-- A freshly constructed FeedClient whose socket is open. -/
def fcConnEmpty : FeedClient :=
  { ws := some true, callbacks := [], reconnectAttempts := 0, sent := [],
    registerCalls := [], unregisterCalls := [] }

/-- A connected FeedClient with one registered listener for feed id ab. -/
def fcConnAB : FeedClient :=
  { fcConnEmpty with callbacks := [(jsStr "ab", [0])] }

/-- A disconnected FeedClient (ws undefined) with one listener for ab. -/
def fcDiscAB : FeedClient :=
  { ws := none, callbacks := [(jsStr "ab", [7])], reconnectAttempts := 0,
    sent := [], registerCalls := [], unregisterCalls := [] }

/-- A connected FeedClient with one listener (7) for feed id ab. -/
def fcConnAB7 : FeedClient :=
  { fcDiscAB with ws := some true }

/-- A service whose feed client exists but whose connected flag is false,
with one supported pair in the registry. -/
def svcDisconnected : PriceFeedService :=
  { feedClient := some fcConnEmpty, subscriptions := [], callbacks := [],
    connected := false, nextCallbackId := 0,
    registry := [(jsStr "BTC/USD", jsStr "ab")] }

/-- A connected service with an empty subscription state and one supported
pair in the registry. -/
def svcConnected : PriceFeedService :=
  { svcDisconnected with connected := true }

/-- A connected service with one consumer (5) subscribed to BTC/USD and
the pyth callback 0 registered for it. -/
def svcOneConsumer : PriceFeedService :=
  { feedClient := some fcConnEmpty,
    subscriptions := [(jsStr "BTC/USD", [5])],
    callbacks := [(jsStr "BTC/USD", 0)],
    connected := true, nextCallbackId := 1,
    registry := [(jsStr "BTC/USD", jsStr "ab")] }

/-- A handler state holding one stored unsubscribe closure for client 1
and pair BTC/USD. -/
def wsOneClient : WSHandler :=
  { svc := svcOneConsumer,
    unsubscribeFunctions :=
      [((1, jsStr "BTC/USD"), ⟨jsStr "BTC/USD", jsStr "ab", 5⟩)],
    invoked := [] }

/-- The session state of client 1, subscribed to BTC/USD. -/
def clOne : ClientState :=
  { id := 1, subscribedPairs := [jsStr "BTC/USD"] }

/-- The service state produced by a successful subscribeToPair call
(unchanged when the call throws); used to fold subscription sequences. -/
def subscribeStep (pair : JStr) (svc : PriceFeedService) (callback : Nat) :
    PriceFeedService :=
  match subscribeToPair svc pair callback with
  | Except.ok (svc', _) => svc'
  | Except.error _ => svc

/-- Subscribe a list of consumers to one pair, in order. -/
def subAll (pair : JStr) (svc : PriceFeedService) (cs : List Nat) : PriceFeedService :=
  cs.foldl (subscribeStep pair) svc

/-- Invoke the unsubscribe handles of a list of consumers for one pair,
in order. -/
def unsubAll (pair feedId : JStr) (svc : PriceFeedService) (us : List Nat) :
    PriceFeedService :=
  us.foldl (fun s c => runUnsubscribe s ⟨pair, feedId, c⟩) svc

section MapLemmas

variable {κ β : Type} [DecidableEq κ]

theorem mapGet_mapSet_self (m : List (κ × β)) (k : κ) (v : β) :
    mapGet (mapSet m k v) k = some v := by
  induction m with
  | nil => simp [mapSet, mapGet]
  | cons hd tl ih =>
      obtain ⟨a, b⟩ := hd
      by_cases h : a = k
      · simp [mapSet, mapGet, h]
      · simp [mapSet, mapGet, h, ih]

theorem mapGet_mapSet_ne (m : List (κ × β)) (k q : κ) (v : β) (h : q ≠ k) :
    mapGet (mapSet m k v) q = mapGet m q := by
  induction m with
  | nil => simp [mapSet, mapGet, h.symm]
  | cons hd tl ih =>
      obtain ⟨a, b⟩ := hd
      by_cases ha : a = k
      · subst ha
        simp [mapSet, mapGet, h.symm]
      · simp [mapSet, mapGet, ha, ih]

theorem mapGet_mapDel_self (m : List (κ × β)) (k : κ) :
    mapGet (mapDel m k) k = none := by
  induction m with
  | nil => simp [mapDel, mapGet]
  | cons hd tl ih =>
      obtain ⟨a, b⟩ := hd
      by_cases h : a = k
      · simp [mapDel, h, ih]
      · simp [mapDel, mapGet, h, ih]

theorem mapGet_mapDel_ne (m : List (κ × β)) (k q : κ) (h : q ≠ k) :
    mapGet (mapDel m k) q = mapGet m q := by
  induction m with
  | nil => simp [mapDel]
  | cons hd tl ih =>
      obtain ⟨a, b⟩ := hd
      by_cases ha : a = k
      · subst ha
        simp [mapDel, mapGet, h.symm, ih]
      · simp [mapDel, mapGet, ha, ih]

theorem mapSet_self_eq (m : List (κ × β)) (k : κ) (v : β)
    (h : mapGet m k = some v) : mapSet m k v = m := by
  induction m with
  | nil => simp [mapGet] at h
  | cons hd tl ih =>
      obtain ⟨a, b⟩ := hd
      by_cases ha : a = k
      · subst ha
        simp [mapGet] at h
        simp [mapSet, h]
      · simp [mapGet, ha] at h
        simp [mapSet, ha, ih h]

theorem mapSet_mapSet (m : List (κ × β)) (k : κ) (v w : β) :
    mapSet (mapSet m k v) k w = mapSet m k w := by
  induction m with
  | nil => simp [mapSet]
  | cons hd tl ih =>
      obtain ⟨a, b⟩ := hd
      by_cases ha : a = k
      · simp [mapSet, ha]
      · simp [mapSet, ha, ih]

end MapLemmas

theorem mapGet_some_mem {κ β : Type} [DecidableEq κ] (m : List (κ × β)) (k : κ)
    (v : β) (h : mapGet m k = some v) : k ∈ m.map Prod.fst := by
  induction m with
  | nil => simp [mapGet] at h
  | cons hd tl ih =>
      obtain ⟨a, b⟩ := hd
      by_cases ha : a = k
      · simp [ha]
      · simp [mapGet, ha] at h
        simp [ih h]

theorem subscribeToPriceFeeds_eq (fc : FeedClient) (ids : List JStr) :
    ∃ s, subscribeToPriceFeeds fc ids = { fc with sent := fc.sent ++ s } := by
  unfold subscribeToPriceFeeds
  split
  · exact ⟨_, rfl⟩
  · exact ⟨[], by simp⟩

theorem unsubscribeFromPriceFeeds_eq (fc : FeedClient) (ids : List JStr) :
    ∃ s, unsubscribeFromPriceFeeds fc ids = { fc with sent := fc.sent ++ s } := by
  unfold unsubscribeFromPriceFeeds
  split
  · exact ⟨_, rfl⟩
  · exact ⟨[], by simp⟩

theorem registerPriceFeedCallback_eq (fc : FeedClient) (feedId : JStr) (cb : Nat) :
    ∃ s, registerPriceFeedCallback fc feedId cb =
      { fc with
          callbacks := mapSet fc.callbacks (normalizeFeedId feedId)
            (((mapGet fc.callbacks (normalizeFeedId feedId)).getD []) ++ [cb]),
          registerCalls := fc.registerCalls ++ [(normalizeFeedId feedId, cb)],
          sent := fc.sent ++ s } := by
  cases hml : mapGet fc.callbacks (normalizeFeedId feedId) with
  | none =>
      unfold registerPriceFeedCallback
      simp only [hml, Option.isNone_none, if_true, Option.getD_none, List.nil_append,
        mapGet_mapSet_self, Option.getD_some, mapSet_mapSet]
      split
      · obtain ⟨s, hs⟩ := subscribeToPriceFeeds_eq
          { fc with
              callbacks := mapSet fc.callbacks (normalizeFeedId feedId) [cb],
              registerCalls := fc.registerCalls ++ [(normalizeFeedId feedId, cb)] }
          [normalizeFeedId feedId]
        exact ⟨s, hs⟩
      · exact ⟨[], by simp⟩
  | some l =>
      unfold registerPriceFeedCallback
      simp only [hml, Option.isNone_some, if_false, Option.getD_some,
        Bool.false_eq_true, ite_false]
      split
      · obtain ⟨s, hs⟩ := subscribeToPriceFeeds_eq
          { fc with
              callbacks := mapSet fc.callbacks (normalizeFeedId feedId) (l ++ [cb]),
              registerCalls := fc.registerCalls ++ [(normalizeFeedId feedId, cb)] }
          [normalizeFeedId feedId]
        exact ⟨s, hs⟩
      · exact ⟨[], by simp⟩

theorem registerPriceFeedCallback_get (fc : FeedClient) (feedId : JStr) (cb : Nat) :
    mapGet (registerPriceFeedCallback fc feedId cb).callbacks (normalizeFeedId feedId) =
      some (((mapGet fc.callbacks (normalizeFeedId feedId)).getD []) ++ [cb]) := by
  obtain ⟨s, hs⟩ := registerPriceFeedCallback_eq fc feedId cb
  rw [hs]
  exact mapGet_mapSet_self _ _ _

theorem dispatchTargets_eq (fc : FeedClient) (rawId : JStr) :
    dispatchTargets fc rawId = (mapGet fc.callbacks (normalizeFeedId rawId)).getD [] := by
  cases h : mapGet fc.callbacks (normalizeFeedId rawId) with
  | none => simp [dispatchTargets, h]
  | some cbs => cases cbs <;> simp [dispatchTargets, h]

theorem attemptReconnect_schedules (fc : FeedClient)
    (h : fc.reconnectAttempts < maxReconnectAttempts) :
    attemptReconnect fc =
      ({ fc with reconnectAttempts := fc.reconnectAttempts + 1 },
       some (reconnectDelay * 2 ^ fc.reconnectAttempts)) := by
  simp [attemptReconnect, Nat.not_le.mpr h]

theorem attemptReconnect_exhausted (fc : FeedClient)
    (h : fc.reconnectAttempts ≥ maxReconnectAttempts) :
    attemptReconnect fc = (fc, none) := by
  simp [attemptReconnect, h]

theorem mapDel_mapSet {κ β : Type} [DecidableEq κ] (m : List (κ × β)) (k : κ) (v : β) :
    mapDel (mapSet m k v) k = mapDel m k := by
  induction m with
  | nil => simp [mapSet, mapDel]
  | cons hd tl ih =>
      obtain ⟨a, b⟩ := hd
      by_cases ha : a = k
      · simp [mapSet, mapDel, ha]
      · simp [mapSet, mapDel, ha, ih]

theorem setDelete_idem (l : List Nat) (x : Nat) :
    setDelete (setDelete l x) x = setDelete l x := by
  simp [setDelete, List.filter_filter]

theorem runUnsubscribe_none (svc : PriceFeedService) (h : Handle)
    (hml : mapGet svc.subscriptions h.pair = none) :
    runUnsubscribe svc h = svc := by
  simp [runUnsubscribe, hml]

theorem runUnsubscribe_nonempty (svc : PriceFeedService) (h : Handle) (cbs : List Nat)
    (hml : mapGet svc.subscriptions h.pair = some cbs)
    (hE : setDelete cbs h.callback ≠ []) :
    runUnsubscribe svc h =
      { svc with
          subscriptions := mapSet svc.subscriptions h.pair (setDelete cbs h.callback) } := by
  have hlen : ¬(setDelete cbs h.callback).length = 0 := by
    simpa [List.length_eq_zero] using hE
  simp [runUnsubscribe, hml, hlen]

theorem runUnsubscribe_empty_none (svc : PriceFeedService) (h : Handle) (cbs : List Nat)
    (hml : mapGet svc.subscriptions h.pair = some cbs)
    (hE : setDelete cbs h.callback = [])
    (hpcb : mapGet svc.callbacks h.pair = none) :
    runUnsubscribe svc h =
      { svc with subscriptions := mapDel svc.subscriptions h.pair } := by
  simp [runUnsubscribe, hml, hE, hpcb, mapDel_mapSet]

theorem runUnsubscribe_empty_some (svc : PriceFeedService) (h : Handle) (cbs : List Nat)
    (pcb : Nat)
    (hml : mapGet svc.subscriptions h.pair = some cbs)
    (hE : setDelete cbs h.callback = [])
    (hpcb : mapGet svc.callbacks h.pair = some pcb) :
    runUnsubscribe svc h =
      { svc with
          subscriptions := mapDel svc.subscriptions h.pair,
          callbacks := mapDel svc.callbacks h.pair,
          feedClient :=
            svc.feedClient.map (fun fc => unregisterPriceFeedCallback fc h.feedId pcb) } := by
  simp [runUnsubscribe, hml, hE, hpcb, mapDel_mapSet]

theorem registerPriceFeedCallback_logs (fc : FeedClient) (feedId : JStr) (cb : Nat) :
    (registerPriceFeedCallback fc feedId cb).registerCalls =
      fc.registerCalls ++ [(normalizeFeedId feedId, cb)] ∧
    (registerPriceFeedCallback fc feedId cb).unregisterCalls = fc.unregisterCalls := by
  obtain ⟨s, hs⟩ := registerPriceFeedCallback_eq fc feedId cb
  rw [hs]
  exact ⟨rfl, rfl⟩

theorem unregisterPriceFeedCallback_logs (fc : FeedClient) (feedId : JStr) (cb : Nat) :
    (unregisterPriceFeedCallback fc feedId cb).unregisterCalls =
      fc.unregisterCalls ++ [(normalizeFeedId feedId, cb)] ∧
    (unregisterPriceFeedCallback fc feedId cb).registerCalls = fc.registerCalls := by
  cases hml : mapGet fc.callbacks (normalizeFeedId feedId) with
  | none => simp [unregisterPriceFeedCallback, hml]
  | some cbs =>
      simp only [unregisterPriceFeedCallback, hml]
      split
      · obtain ⟨s, hs⟩ := unsubscribeFromPriceFeeds_eq
          { fc with
              callbacks :=
                mapSet fc.callbacks (normalizeFeedId feedId) (eraseFirst cbs cb),
              unregisterCalls :=
                fc.unregisterCalls ++ [(normalizeFeedId feedId, cb)] }
          [normalizeFeedId feedId]
        rw [hs]
        exact ⟨rfl, rfl⟩
      · exact ⟨rfl, rfl⟩

theorem foldl_setAdd_of_nodup (rest : List Nat) :
    ∀ l : List Nat, (∀ x ∈ rest, x ∉ l) → rest.Nodup →
      List.foldl setAdd l rest = l ++ rest := by
  induction rest with
  | nil => intro l _ _; simp
  | cons c rest ih =>
      intro l hfresh hnd
      have hc : c ∉ l := hfresh c (List.mem_cons_self c rest)
      have hstep : setAdd l c = l ++ [c] := by simp [setAdd, hc]
      have hfresh2 : ∀ x ∈ rest, x ∉ l ++ [c] := by
        intro x hx
        have hxl : x ∉ l := hfresh x (List.mem_cons_of_mem c hx)
        have hxc : x ≠ c := by
          intro he
          subst he
          exact (List.nodup_cons.mp hnd).1 hx
        simp [hxl, hxc]
      calc List.foldl setAdd l (c :: rest)
          = List.foldl setAdd (l ++ [c]) rest := by rw [List.foldl_cons, hstep]
        _ = (l ++ [c]) ++ rest := ih (l ++ [c]) hfresh2 (List.nodup_cons.mp hnd).2
        _ = l ++ c :: rest := by simp

theorem mem_setDelete (l : List Nat) (x y : Nat) :
    y ∈ setDelete l x ↔ y ∈ l ∧ y ≠ x := by
  simp [setDelete, List.mem_filter]

theorem nodup_setDelete (l : List Nat) (x : Nat) (h : l.Nodup) :
    (setDelete l x).Nodup := List.Nodup.filter _ h

theorem mem_foldl_setDelete (us : List Nat) :
    ∀ (l : List Nat) (y : Nat),
      y ∈ List.foldl setDelete l us ↔ y ∈ l ∧ y ∉ us := by
  induction us with
  | nil => intro l y; simp
  | cons u us ih =>
      intro l y
      rw [List.foldl_cons, ih]
      rw [mem_setDelete]
      constructor
      · rintro ⟨⟨hyl, hyu⟩, hyus⟩
        exact ⟨hyl, by simp [hyu, hyus]⟩
      · rintro ⟨hyl, hy⟩
        simp only [List.mem_cons, not_or] at hy
        exact ⟨⟨hyl, hy.1⟩, hy.2⟩

theorem nodup_foldl_setDelete (us : List Nat) :
    ∀ l : List Nat, l.Nodup → (List.foldl setDelete l us).Nodup := by
  induction us with
  | nil => intro l h; simpa using h
  | cons u us ih =>
      intro l h
      rw [List.foldl_cons]
      exact ih _ (nodup_setDelete l u h)

theorem eq_singleton_of_nodup (l : List Nat) (c : Nat) (hnd : l.Nodup)
    (hmem : c ∈ l) (hall : ∀ x ∈ l, x = c) : l = [c] := by
  cases l with
  | nil => simp at hmem
  | cons a t =>
      have ha : a = c := hall a (List.mem_cons_self a t)
      subst ha
      cases t with
      | nil => rfl
      | cons b t2 =>
          have hb : b = a := hall b (by simp)
          subst hb
          exact absurd (List.mem_cons_self b t2) (List.nodup_cons.mp hnd).1

theorem setDelete_singleton (c : Nat) : setDelete [c] c = [] := by
  simp [setDelete]

theorem subscribeToPair_first (svc : PriceFeedService) (fc : FeedClient)
    (pair feedId : JStr) (cb : Nat)
    (hfc : svc.feedClient = some fc)
    (hconn : svc.connected = true)
    (hreg : mapGet svc.registry pair = some feedId)
    (hsub : mapGet svc.subscriptions pair = none)
    (hpcb : mapGet svc.callbacks pair = none) :
    subscribeToPair svc pair cb =
      Except.ok
        ({ svc with
            subscriptions := mapSet svc.subscriptions pair [cb],
            callbacks := mapSet svc.callbacks pair svc.nextCallbackId,
            nextCallbackId := svc.nextCallbackId + 1,
            feedClient :=
              some (registerPriceFeedCallback fc feedId svc.nextCallbackId) },
         ⟨pair, feedId, cb⟩) := by
  simp [subscribeToPair, hfc, hconn, hreg, hsub, hpcb, mapGet_mapSet_self,
    mapSet_mapSet, setAdd]

theorem subscribeToPair_next (svc : PriceFeedService) (pair feedId : JStr)
    (cb pcb : Nat) (l : List Nat)
    (hfc : svc.feedClient.isNone = false)
    (hconn : svc.connected = true)
    (hreg : mapGet svc.registry pair = some feedId)
    (hsub : mapGet svc.subscriptions pair = some l)
    (hpcb : mapGet svc.callbacks pair = some pcb) :
    subscribeToPair svc pair cb =
      Except.ok
        ({ svc with subscriptions := mapSet svc.subscriptions pair (setAdd l cb) },
         ⟨pair, feedId, cb⟩) := by
  simp [subscribeToPair, hfc, hconn, hreg, hsub, hpcb, mapGet_mapSet_self]

theorem subAll_next (pair feedId : JStr) (rest : List Nat) :
    ∀ (svc : PriceFeedService) (l : List Nat) (pcb : Nat),
      svc.feedClient.isNone = false →
      svc.connected = true →
      mapGet svc.registry pair = some feedId →
      mapGet svc.subscriptions pair = some l →
      mapGet svc.callbacks pair = some pcb →
      subAll pair svc rest =
        { svc with
            subscriptions :=
              mapSet svc.subscriptions pair (List.foldl setAdd l rest) } := by
  induction rest with
  | nil =>
      intro svc l pcb _ _ _ hsub _
      simp [subAll, mapSet_self_eq _ _ _ hsub]
  | cons c rest ih =>
      intro svc l pcb hfc hconn hreg hsub hpcb
      have hstep := subscribeToPair_next svc pair feedId c pcb l hfc hconn hreg hsub hpcb
      have hfold : subAll pair svc (c :: rest) =
          subAll pair (subscribeStep pair svc c) rest := by
        simp [subAll, List.foldl_cons]
      rw [hfold]
      have hstate : subscribeStep pair svc c =
          { svc with subscriptions := mapSet svc.subscriptions pair (setAdd l c) } := by
        simp [subscribeStep, hstep]
      rw [hstate]
      rw [ih { svc with subscriptions := mapSet svc.subscriptions pair (setAdd l c) }
            (setAdd l c) pcb hfc hconn hreg (mapGet_mapSet_self _ _ _) hpcb]
      simp [mapSet_mapSet, List.foldl_cons]

theorem unsubAll_keeps (pair feedId : JStr) (clast : Nat) (us : List Nat) :
    ∀ (svc : PriceFeedService) (l : List Nat),
      mapGet svc.subscriptions pair = some l →
      clast ∈ l →
      clast ∉ us →
      unsubAll pair feedId svc us =
        { svc with
            subscriptions :=
              mapSet svc.subscriptions pair (List.foldl setDelete l us) } := by
  induction us with
  | nil =>
      intro svc l hml _ _
      simp [unsubAll, mapSet_self_eq _ _ _ hml]
  | cons u us ih =>
      intro svc l hml hmem hnin
      have hne : clast ≠ u := by
        intro he
        exact hnin (he ▸ List.mem_cons_self u us)
      have hmem2 : clast ∈ setDelete l u := (mem_setDelete l u clast).mpr ⟨hmem, hne⟩
      have hnonempty : setDelete l u ≠ [] := List.ne_nil_of_mem hmem2
      have hfold : unsubAll pair feedId svc (u :: us) =
          unsubAll pair feedId (runUnsubscribe svc ⟨pair, feedId, u⟩) us := by
        simp [unsubAll, List.foldl_cons]
      rw [hfold]
      have hstate := runUnsubscribe_nonempty svc ⟨pair, feedId, u⟩ l hml hnonempty
      rw [hstate]
      have hnin2 : clast ∉ us := fun hx => hnin (List.mem_cons_of_mem u hx)
      rw [ih { svc with subscriptions := mapSet svc.subscriptions pair (setDelete l u) }
            (setDelete l u) (mapGet_mapSet_self _ _ _) hmem2 hnin2]
      simp [mapSet_mapSet, List.foldl_cons]

theorem setDelete_of_not_mem (l : List Nat) (x : Nat) (h : x ∉ l) :
    setDelete l x = l := by
  induction l with
  | nil => rfl
  | cons a t ih =>
      have hax : a ≠ x := fun he => h (he ▸ List.mem_cons_self a t)
      have hxt : x ∉ t := fun hx => h (List.mem_cons_of_mem a hx)
      simp [setDelete, hax] at ih ⊢
      exact ih hxt

theorem setDelete_length (l : List Nat) (x : Nat) (hmem : x ∈ l) (hnd : l.Nodup) :
    (setDelete l x).length + 1 = l.length := by
  induction l with
  | nil => simp at hmem
  | cons a t ih =>
      by_cases hax : a = x
      · subst hax
        have hat : a ∉ t := (List.nodup_cons.mp hnd).1
        have h1 : setDelete (a :: t) a = t := by
          have h0 : setDelete (a :: t) a = setDelete t a := by simp [setDelete]
          rw [h0]
          exact setDelete_of_not_mem t a hat
        rw [h1]
        simp
      · have hxt : x ∈ t := by
          rcases List.mem_cons.mp hmem with h | h
          · exact absurd h.symm hax
          · exact h
        have ihx := ih hxt (List.nodup_cons.mp hnd).2
        have h2 : setDelete (a :: t) x = a :: setDelete t x := by
          simp [setDelete, hax]
        rw [h2]
        simp only [List.length_cons]
        omega

theorem not_mem_setDelete (l : List Nat) (x : Nat) : x ∉ setDelete l x := by
  intro hx
  exact ((mem_setDelete l x x).mp hx).2 rfl

theorem runUnsubscribe_subscriptions_other (svc : PriceFeedService) (h : Handle)
    (q : JStr) (hq : q ≠ h.pair) :
    mapGet (runUnsubscribe svc h).subscriptions q = mapGet svc.subscriptions q := by
  cases hml : mapGet svc.subscriptions h.pair with
  | none => rw [runUnsubscribe_none svc h hml]
  | some cbs =>
      by_cases hE : setDelete cbs h.callback = []
      · cases hpcb : mapGet svc.callbacks h.pair with
        | none =>
            rw [runUnsubscribe_empty_none svc h cbs hml hE hpcb]
            exact mapGet_mapDel_ne _ _ _ hq
        | some pcb =>
            rw [runUnsubscribe_empty_some svc h cbs pcb hml hE hpcb]
            exact mapGet_mapDel_ne _ _ _ hq
      · rw [runUnsubscribe_nonempty svc h cbs hml hE]
        exact mapGet_mapSet_ne _ _ _ _ hq

theorem runUnsubscribe_consumersOf_self (svc : PriceFeedService) (h : Handle) :
    consumersOf (runUnsubscribe svc h) h.pair =
      setDelete (consumersOf svc h.pair) h.callback := by
  cases hml : mapGet svc.subscriptions h.pair with
  | none =>
      rw [runUnsubscribe_none svc h hml]
      simp [consumersOf, hml, setDelete]
  | some cbs =>
      by_cases hE : setDelete cbs h.callback = []
      · cases hpcb : mapGet svc.callbacks h.pair with
        | none =>
            rw [runUnsubscribe_empty_none svc h cbs hml hE hpcb]
            simp [consumersOf, hml, hE, mapGet_mapDel_self]
        | some pcb =>
            rw [runUnsubscribe_empty_some svc h cbs pcb hml hE hpcb]
            simp [consumersOf, hml, hE, mapGet_mapDel_self]
      · rw [runUnsubscribe_nonempty svc h cbs hml hE]
        simp [consumersOf, hml, mapGet_mapSet_self]

theorem disconnectStep_some (w : WSHandler) (sid : Nat) (p : JStr) (h : Handle)
    (hk : mapGet w.unsubscribeFunctions (sid, p) = some h) :
    disconnectStep w sid p =
      { svc := runUnsubscribe w.svc h,
        unsubscribeFunctions := mapDel w.unsubscribeFunctions (sid, p),
        invoked := w.invoked ++ [h] } := by
  simp [disconnectStep, hk]

theorem disconnectAll_spec (sid : Nat) (ps : List JStr) :
    ∀ w : WSHandler, ps.Nodup →
      (∀ p ∈ ps, ∃ h, mapGet w.unsubscribeFunctions (sid, p) = some h ∧ h.pair = p) →
      (disconnectAll sid w ps).invoked.length = w.invoked.length + ps.length ∧
      (∀ p ∈ ps, mapGet (disconnectAll sid w ps).unsubscribeFunctions (sid, p) = none) ∧
      (∀ p ∈ ps, ∀ h, mapGet w.unsubscribeFunctions (sid, p) = some h →
          consumersOf (disconnectAll sid w ps).svc p =
            setDelete (consumersOf w.svc p) h.callback) ∧
      (∀ q : JStr, q ∉ ps →
          mapGet (disconnectAll sid w ps).unsubscribeFunctions (sid, q) =
            mapGet w.unsubscribeFunctions (sid, q) ∧
          consumersOf (disconnectAll sid w ps).svc q = consumersOf w.svc q) := by
  induction ps with
  | nil =>
      intro w _ _
      refine ⟨by simp [disconnectAll], by simp, by simp, ?_⟩
      intro q _
      exact ⟨rfl, rfl⟩
  | cons p ps ih =>
      intro w hnd hkeys
      obtain ⟨h0, hk0, hp0⟩ := hkeys p (List.mem_cons_self p ps)
      have hstep := disconnectStep_some w sid p h0 hk0
      have hpps : p ∉ ps := (List.nodup_cons.mp hnd).1
      have hfold : disconnectAll sid w (p :: ps) =
          disconnectAll sid (disconnectStep w sid p) ps := by
        simp [disconnectAll, List.foldl_cons]
      have hkeys2 : ∀ q ∈ ps,
          ∃ h, mapGet (disconnectStep w sid p).unsubscribeFunctions (sid, q) = some h ∧
            h.pair = q := by
        intro q hq
        obtain ⟨h, hk, hp⟩ := hkeys q (List.mem_cons_of_mem p hq)
        have hqp : q ≠ p := fun he => hpps (he ▸ hq)
        refine ⟨h, ?_, hp⟩
        rw [hstep]
        have hne : (sid, q) ≠ (sid, p) := by
          intro he
          exact hqp (congrArg Prod.snd he)
        rw [mapGet_mapDel_ne _ _ _ hne]
        exact hk
      obtain ⟨ih1, ih2, ih3, ih4⟩ := ih (disconnectStep w sid p)
        (List.nodup_cons.mp hnd).2 hkeys2
      have hw1inv : (disconnectStep w sid p).invoked.length = w.invoked.length + 1 := by
        rw [hstep]
        simp
      have hw1ufp :
          mapGet (disconnectStep w sid p).unsubscribeFunctions (sid, p) = none := by
        rw [hstep]
        exact mapGet_mapDel_self _ _
      have hw1consp : consumersOf (disconnectStep w sid p).svc p =
          setDelete (consumersOf w.svc p) h0.callback := by
        rw [hstep]
        have := runUnsubscribe_consumersOf_self w.svc h0
        rw [hp0] at this
        exact this
      have hw1consother : ∀ q : JStr, q ≠ p →
          consumersOf (disconnectStep w sid p).svc q = consumersOf w.svc q := by
        intro q hq
        rw [hstep]
        unfold consumersOf
        rw [runUnsubscribe_subscriptions_other w.svc h0 q (hp0 ▸ hq)]
      have hw1ufother : ∀ q : JStr, q ≠ p →
          mapGet (disconnectStep w sid p).unsubscribeFunctions (sid, q) =
            mapGet w.unsubscribeFunctions (sid, q) := by
        intro q hq
        rw [hstep]
        exact mapGet_mapDel_ne _ _ _ (by intro he; exact hq (congrArg Prod.snd he))
      refine ⟨?_, ?_, ?_, ?_⟩
      · rw [hfold, ih1, hw1inv]
        simp
        omega
      · intro q hq
        rw [hfold]
        rcases List.mem_cons.mp hq with he | hin
        · subst he
          rw [(ih4 q hpps).1]
          exact hw1ufp
        · exact ih2 q hin
      · intro q hq h hh
        rw [hfold]
        rcases List.mem_cons.mp hq with he | hin
        · subst he
          have hh0 : h = h0 := Option.some.inj (hh.symm.trans hk0)
          subst hh0
          rw [(ih4 q hpps).2, hw1consp]
        · have hqp : q ≠ p := fun he => hpps (he ▸ hin)
          have hh1 : mapGet (disconnectStep w sid p).unsubscribeFunctions (sid, q) =
              some h := by
            rw [hw1ufother q hqp]
            exact hh
          rw [ih3 q hin h hh1, hw1consother q hqp]
      · intro q hq
        have hqp : q ≠ p := fun he => hq (he ▸ List.mem_cons_self p ps)
        have hqps : q ∉ ps := fun hx => hq (List.mem_cons_of_mem p hx)
        rw [hfold]
        constructor
        · rw [(ih4 q hqps).1, hw1ufother q hqp]
        · rw [(ih4 q hqps).2, hw1consother q hqp]

theorem normalizeFeedId_of_variant (c x : JStr) (hc : isCanonical c)
    (hx : isVariantOf x c) : normalizeFeedId x = c := by
  obtain ⟨hlc, hck⟩ := hc
  cases hx with
  | inl h => simp [normalizeFeedId, h, hck]
  | inr h => simp [normalizeFeedId, h]

/-- Claim C6: identifier normalization is idempotent on casing/0x-prefix
variants, and any two variants of the same identifier normalize to the
same canonical lower-case, prefix-free string. -/
theorem claim_C6_normalize_idempotent (c x y : JStr) (hc : isCanonical c)
    (hx : isVariantOf x c) (hy : isVariantOf y c) :
    normalizeFeedId x = c ∧
    normalizeFeedId (normalizeFeedId x) = normalizeFeedId x ∧
    normalizeFeedId y = normalizeFeedId x ∧
    strLower (normalizeFeedId x) = normalizeFeedId x ∧
    (normalizeFeedId x).take 2 ≠ ['0', 'x'] := by
  have hxc := normalizeFeedId_of_variant c x hc hx
  have hyc := normalizeFeedId_of_variant c y hc hy
  have hcc := normalizeFeedId_of_variant c c hc (Or.inl hc.1)
  refine ⟨hxc, ?_, ?_, ?_, ?_⟩
  · rw [hxc, hcc]
  · rw [hxc, hyc]
  · rw [hxc]; exact hc.1
  · rw [hxc]; exact hc.2

/-- Witness for claim C6 at the canonical id ab and two of its variants. -/
theorem claim_C6_witness :
    normalizeFeedId (jsStr "0xAB") = jsStr "ab" ∧
    normalizeFeedId (normalizeFeedId (jsStr "0xAB")) = normalizeFeedId (jsStr "0xAB") ∧
    normalizeFeedId (jsStr "Ab") = normalizeFeedId (jsStr "0xAB") := by
  have h := claim_C6_normalize_idempotent (jsStr "ab") (jsStr "0xAB") (jsStr "Ab")
    ⟨by decide, by decide⟩ (Or.inr (by decide)) (Or.inl (by decide))
  exact ⟨h.1, h.2.1, h.2.2.1⟩

/-- Counterexample to claim C3: closing a connected FeedClient with one
registered listener leaves the per-identifier callback map non-empty, and
the socket close event that close() provokes schedules a reconnection
retry (after 1000 ms), so the callback map is not cleared and a
reconnection is attempted without the caller asking for one. -/
theorem claim_C3_counterexample :
    (close fcConnAB).callbacks = [(jsStr "ab", [0])] ∧
    (close fcConnAB).callbacks ≠ [] ∧
    (onSocketClose (close fcConnAB)).2 = some 1000 := by decide

/-- Amended claim C3: close() tears down the socket (the ws field becomes
undefined) but leaves the callback map and the outbound message log
untouched, and the socket close event it provokes runs the reconnect
logic, which schedules a retry whenever the attempt counter is below the
maximum. -/
theorem claim_C3_close_spec (fc : FeedClient) :
    (close fc).ws = none ∧
    (close fc).callbacks = fc.callbacks ∧
    (close fc).sent = fc.sent ∧
    ((close fc).reconnectAttempts < maxReconnectAttempts →
      (onSocketClose (close fc)).2 =
        some (reconnectDelay * 2 ^ (close fc).reconnectAttempts)) := by
  obtain ⟨ws, cbs, ra, s, rc, uc⟩ := fc
  cases ws <;>
    exact ⟨rfl, rfl, rfl, fun h => congrArg Prod.snd (attemptReconnect_schedules _ h)⟩

/-- Witness for the amended claim C3 at a concrete connected client. -/
theorem claim_C3_witness :
    (close fcConnEmpty).ws = none ∧
    (onSocketClose (close fcConnEmpty)).2 = some 1000 := by
  have h := claim_C3_close_spec fcConnEmpty
  refine ⟨h.1, ?_⟩
  have h4 := h.2.2.2 (by decide)
  simpa using h4

/-- Counterexample to claim C5: registering the same listener reference
twice for the same identifier stores it twice, and a single inbound tick
then invokes it twice, not once. -/
theorem claim_C5_counterexample :
    (mapGet (registerPriceFeedCallback
        (registerPriceFeedCallback fcConnEmpty (jsStr "ab") 7)
        (jsStr "ab") 7).callbacks (jsStr "ab")).getD [] = [7, 7] ∧
    dispatchTargets (registerPriceFeedCallback
        (registerPriceFeedCallback fcConnEmpty (jsStr "ab") 7)
        (jsStr "ab") 7) (jsStr "ab") = [7, 7] := by decide

/-- Amended claim C5: the listener store has array (multiset) semantics:
every registerPriceFeedCallback call appends the callback, so after two
calls with the same (identifier, callback) the listener list holds two
occurrences and a single inbound tick invokes the callback twice. -/
theorem claim_C5_register_appends (fc : FeedClient) (feedId : JStr) (cb : Nat) :
    ((mapGet (registerPriceFeedCallback (registerPriceFeedCallback fc feedId cb)
          feedId cb).callbacks (normalizeFeedId feedId)).getD []).count cb =
      ((mapGet fc.callbacks (normalizeFeedId feedId)).getD []).count cb + 2 ∧
    (dispatchTargets (registerPriceFeedCallback (registerPriceFeedCallback fc feedId cb)
          feedId cb) feedId).count cb =
      ((mapGet fc.callbacks (normalizeFeedId feedId)).getD []).count cb + 2 := by
  have h1 := registerPriceFeedCallback_get fc feedId cb
  have h2 := registerPriceFeedCallback_get (registerPriceFeedCallback fc feedId cb) feedId cb
  rw [h1] at h2
  constructor
  · rw [h2]
    simp [List.count_append]
  · rw [dispatchTargets_eq, h2]
    simp [List.count_append]

/-- Claim C8: reconnection backoff. While attempts are not exhausted,
attempt n (one-based, n = previous counter + 1) schedules a retry after
base * 2 ^ (n - 1) ms; every scheduled delay is bounded by the delay of
the final allowed attempt; the attempt counter never exceeds the maximum;
when attempts are exhausted nothing further is scheduled; a successful
reconnect (the socket open handler) resets the counter to zero and sends
a subscribe that covers every identifier that has a listener. -/
theorem claim_C8_reconnect_backoff (fc : FeedClient) :
    (fc.reconnectAttempts < maxReconnectAttempts →
        (attemptReconnect fc).1.reconnectAttempts = fc.reconnectAttempts + 1 ∧
        (attemptReconnect fc).2 =
          some (reconnectDelay * 2 ^ ((fc.reconnectAttempts + 1) - 1))) ∧
    (∀ d, (attemptReconnect fc).2 = some d →
        d ≤ reconnectDelay * 2 ^ (maxReconnectAttempts - 1)) ∧
    (fc.reconnectAttempts ≤ maxReconnectAttempts →
        (attemptReconnect fc).1.reconnectAttempts ≤ maxReconnectAttempts) ∧
    (fc.reconnectAttempts ≥ maxReconnectAttempts → attemptReconnect fc = (fc, none)) ∧
    (onOpen fc).reconnectAttempts = 0 ∧
    (∀ id cbs, mapGet fc.callbacks id = some cbs → cbs ≠ [] →
        ∃ ids, WireMsg.subscribeIds ids ∈ (onOpen fc).sent ∧
          normalizeFeedId id ∈ ids) := by
  refine ⟨?_, ?_, ?_, ?_, ?_, ?_⟩
  · intro h
    rw [attemptReconnect_schedules fc h]
    simp
  · intro d hd
    by_cases h : fc.reconnectAttempts < maxReconnectAttempts
    · rw [attemptReconnect_schedules fc h] at hd
      simp at hd
      subst hd
      have hle : fc.reconnectAttempts ≤ maxReconnectAttempts - 1 := by omega
      exact Nat.mul_le_mul_left _ (Nat.pow_le_pow_right (by norm_num) hle)
    · rw [attemptReconnect_exhausted fc (Nat.not_lt.mp h)] at hd
      simp at hd
  · intro h
    by_cases hlt : fc.reconnectAttempts < maxReconnectAttempts
    · rw [attemptReconnect_schedules fc hlt]
      simp
      omega
    · rw [attemptReconnect_exhausted fc (Nat.not_lt.mp hlt)]
      exact h
  · exact fun h => attemptReconnect_exhausted fc h
  · unfold onOpen
    dsimp only
    split
    · obtain ⟨s, hs⟩ := subscribeToPriceFeeds_eq
        { fc with ws := some true, reconnectAttempts := 0 } (fc.callbacks.map Prod.fst)
      rw [hs]
    · rfl
  · intro id cbs hget _
    have hmem : id ∈ fc.callbacks.map Prod.fst := mapGet_some_mem _ _ _ hget
    have hne : (fc.callbacks.map Prod.fst).length > 0 :=
      List.length_pos.mpr (List.ne_nil_of_mem hmem)
    refine ⟨(fc.callbacks.map Prod.fst).map normalizeFeedId, ?_, ?_⟩
    · unfold onOpen
      dsimp only
      rw [if_pos hne]
      unfold subscribeToPriceFeeds
      dsimp only
      rw [if_pos rfl]
      simp
    · exact List.mem_map_of_mem normalizeFeedId hmem

/-- Witness for claim C8 at a concrete client with one listener:
attempt 1 is scheduled after 1000 ms, an exhausted client schedules
nothing, and the open handler resets the counter and re-subscribes ab. -/
theorem claim_C8_witness :
    (attemptReconnect fcConnAB).1.reconnectAttempts = 1 ∧
    (attemptReconnect fcConnAB).2 = some 1000 ∧
    attemptReconnect { fcConnAB with reconnectAttempts := 5 } =
      ({ fcConnAB with reconnectAttempts := 5 }, none) ∧
    (onOpen fcConnAB).reconnectAttempts = 0 ∧
    (∃ ids, WireMsg.subscribeIds ids ∈ (onOpen fcConnAB).sent ∧
      normalizeFeedId (jsStr "ab") ∈ ids) := by
  have h1 := claim_C8_reconnect_backoff fcConnAB
  have h2 := claim_C8_reconnect_backoff { fcConnAB with reconnectAttempts := 5 }
  refine ⟨(h1.1 (by decide)).1, ?_, h2.2.2.2.1 (by decide), h1.2.2.2.2.1, ?_⟩
  · have := (h1.1 (by decide)).2
    simpa using this
  · exact h1.2.2.2.2.2 (jsStr "ab") [0] (by decide) (by decide)

/-- Claim C1: reference counting in the multiplexer. From a connected
service with a fresh upstream client and no state for pair p, subscribing
the distinct consumers c0 :: rest makes exactly one upstream
registerPriceFeedCallback call for p's feed id — already after the first
subscribe — and no unregister call; invoking the unsubscribe handles of
any k-1 of the k consumers (us, in any order) leaves the upstream
registration in place (still one register call, zero unregister calls,
and the pair's dispatcher still stored); invoking the handle of the last
remaining consumer makes exactly one upstream unregister call and removes
the dispatcher, so at every stage the number of live upstream
registrations for the identifier is 0 or 1. -/
theorem claim_C1_refcount (svc0 : PriceFeedService) (fc0 : FeedClient)
    (p feedId : JStr) (c0 clast : Nat) (rest us : List Nat)
    (hfc : svc0.feedClient = some fc0)
    (hlog1 : fc0.registerCalls = [])
    (hlog2 : fc0.unregisterCalls = [])
    (hconn : svc0.connected = true)
    (hreg : mapGet svc0.registry p = some feedId)
    (hsub0 : mapGet svc0.subscriptions p = none)
    (hpcb0 : mapGet svc0.callbacks p = none)
    (hnd : (c0 :: rest).Nodup)
    (hperm : (us ++ [clast]).Perm (c0 :: rest)) :
    registerCallsFor (subscribeStep p svc0 c0) feedId = 1 ∧
    registerCallsFor (subAll p svc0 (c0 :: rest)) feedId = 1 ∧
    unregisterCallsFor (subAll p svc0 (c0 :: rest)) feedId = 0 ∧
    registerCallsFor (unsubAll p feedId (subAll p svc0 (c0 :: rest)) us) feedId = 1 ∧
    unregisterCallsFor (unsubAll p feedId (subAll p svc0 (c0 :: rest)) us) feedId = 0 ∧
    (mapGet (unsubAll p feedId (subAll p svc0 (c0 :: rest)) us).callbacks p).isSome
      = true ∧
    registerCallsFor
      (runUnsubscribe (unsubAll p feedId (subAll p svc0 (c0 :: rest)) us)
        ⟨p, feedId, clast⟩) feedId = 1 ∧
    unregisterCallsFor
      (runUnsubscribe (unsubAll p feedId (subAll p svc0 (c0 :: rest)) us)
        ⟨p, feedId, clast⟩) feedId = 1 ∧
    mapGet (runUnsubscribe (unsubAll p feedId (subAll p svc0 (c0 :: rest)) us)
        ⟨p, feedId, clast⟩).callbacks p = none := by
  have hstep1 := subscribeToPair_first svc0 fc0 p feedId c0 hfc hconn hreg hsub0 hpcb0
  have hstate1 : subscribeStep p svc0 c0 =
      { svc0 with
          subscriptions := mapSet svc0.subscriptions p [c0],
          callbacks := mapSet svc0.callbacks p svc0.nextCallbackId,
          nextCallbackId := svc0.nextCallbackId + 1,
          feedClient :=
            some (registerPriceFeedCallback fc0 feedId svc0.nextCallbackId) } := by
    simp [subscribeStep, hstep1]
  have hfc1r : (registerPriceFeedCallback fc0 feedId svc0.nextCallbackId).registerCalls
      = [(normalizeFeedId feedId, svc0.nextCallbackId)] := by
    rw [(registerPriceFeedCallback_logs fc0 feedId svc0.nextCallbackId).1, hlog1]
    rfl
  have hfc1u : (registerPriceFeedCallback fc0 feedId svc0.nextCallbackId).unregisterCalls
      = [] := by
    rw [(registerPriceFeedCallback_logs fc0 feedId svc0.nextCallbackId).2, hlog2]
  have hcount1 : ∀ svcX : PriceFeedService,
      svcX.feedClient = some (registerPriceFeedCallback fc0 feedId svc0.nextCallbackId) →
      registerCallsFor svcX feedId = 1 ∧ unregisterCallsFor svcX feedId = 0 := by
    intro svcX hX
    constructor
    · simp [registerCallsFor, hX, hfc1r]
    · simp [unregisterCallsFor, hX, hfc1u]
  have hfold2 : List.foldl setAdd [c0] rest = c0 :: rest := by
    have hfresh : ∀ x ∈ rest, x ∉ [c0] := by
      intro x hx
      simp only [List.mem_singleton]
      intro he
      subst he
      exact (List.nodup_cons.mp hnd).1 hx
    simpa using foldl_setAdd_of_nodup rest [c0] hfresh (List.nodup_cons.mp hnd).2
  have hsuball : subAll p svc0 (c0 :: rest) =
      { svc0 with
          subscriptions := mapSet svc0.subscriptions p (c0 :: rest),
          callbacks := mapSet svc0.callbacks p svc0.nextCallbackId,
          nextCallbackId := svc0.nextCallbackId + 1,
          feedClient :=
            some (registerPriceFeedCallback fc0 feedId svc0.nextCallbackId) } := by
    have h1 : subAll p svc0 (c0 :: rest) = subAll p (subscribeStep p svc0 c0) rest := by
      simp [subAll, List.foldl_cons]
    rw [h1, hstate1]
    rw [subAll_next p feedId rest
      { svc0 with
          subscriptions := mapSet svc0.subscriptions p [c0],
          callbacks := mapSet svc0.callbacks p svc0.nextCallbackId,
          nextCallbackId := svc0.nextCallbackId + 1,
          feedClient :=
            some (registerPriceFeedCallback fc0 feedId svc0.nextCallbackId) }
      [c0] svc0.nextCallbackId rfl hconn hreg
      (mapGet_mapSet_self _ _ _) (mapGet_mapSet_self _ _ _)]
    rw [hfold2]
    simp [mapSet_mapSet]
  have hclast_mem : clast ∈ c0 :: rest := hperm.mem_iff.mp (by simp)
  have hclast_nin : clast ∉ us := by
    have hndu : (us ++ [clast]).Nodup := hperm.nodup_iff.mpr hnd
    intro hx
    have hd := (List.nodup_append.mp hndu).2.2 hx
    simp at hd
  have hst2 : unsubAll p feedId (subAll p svc0 (c0 :: rest)) us =
      { svc0 with
          subscriptions :=
            mapSet svc0.subscriptions p (List.foldl setDelete (c0 :: rest) us),
          callbacks := mapSet svc0.callbacks p svc0.nextCallbackId,
          nextCallbackId := svc0.nextCallbackId + 1,
          feedClient :=
            some (registerPriceFeedCallback fc0 feedId svc0.nextCallbackId) } := by
    rw [hsuball]
    rw [unsubAll_keeps p feedId clast us
      { svc0 with
          subscriptions := mapSet svc0.subscriptions p (c0 :: rest),
          callbacks := mapSet svc0.callbacks p svc0.nextCallbackId,
          nextCallbackId := svc0.nextCallbackId + 1,
          feedClient :=
            some (registerPriceFeedCallback fc0 feedId svc0.nextCallbackId) }
      (c0 :: rest) (mapGet_mapSet_self _ _ _) hclast_mem hclast_nin]
    simp [mapSet_mapSet]
  have hL2 : List.foldl setDelete (c0 :: rest) us = [clast] := by
    apply eq_singleton_of_nodup _ clast
      (nodup_foldl_setDelete us (c0 :: rest) hnd)
    · exact (mem_foldl_setDelete us (c0 :: rest) clast).mpr ⟨hclast_mem, hclast_nin⟩
    · intro x hx
      obtain ⟨hxc, hxu⟩ := (mem_foldl_setDelete us (c0 :: rest) x).mp hx
      have hx2 : x ∈ us ++ [clast] := hperm.mem_iff.mpr hxc
      rcases List.mem_append.mp hx2 with h | h
      · exact absurd h hxu
      · simpa using h
  have hst2get : mapGet (unsubAll p feedId (subAll p svc0 (c0 :: rest)) us).subscriptions p
      = some [clast] := by
    simp only [hst2, hL2]
    exact mapGet_mapSet_self _ _ _
  have hst2pcb : mapGet (unsubAll p feedId (subAll p svc0 (c0 :: rest)) us).callbacks p
      = some svc0.nextCallbackId := by
    rw [hst2]
    exact mapGet_mapSet_self _ _ _
  have hst2fc : (unsubAll p feedId (subAll p svc0 (c0 :: rest)) us).feedClient
      = some (registerPriceFeedCallback fc0 feedId svc0.nextCallbackId) := by
    rw [hst2]
  have hfinal := runUnsubscribe_empty_some
    (unsubAll p feedId (subAll p svc0 (c0 :: rest)) us) ⟨p, feedId, clast⟩
    [clast] svc0.nextCallbackId hst2get (setDelete_singleton clast) hst2pcb
  have hc1 := hcount1 (subscribeStep p svc0 c0) (by rw [hstate1])
  have hc2 := hcount1 (subAll p svc0 (c0 :: rest)) (by rw [hsuball])
  have hc3 := hcount1 (unsubAll p feedId (subAll p svc0 (c0 :: rest)) us) hst2fc
  refine ⟨hc1.1, hc2.1, hc2.2, hc3.1, hc3.2, ?_, ?_, ?_, ?_⟩
  · rw [hst2pcb]
    rfl
  · rw [hfinal]
    simp [registerCallsFor, hst2fc,
      (unregisterPriceFeedCallback_logs _ feedId svc0.nextCallbackId).2, hfc1r]
  · rw [hfinal]
    simp [unregisterCallsFor, hst2fc,
      (unregisterPriceFeedCallback_logs _ feedId svc0.nextCallbackId).1, hfc1u]
  · rw [hfinal]
    simp [mapGet_mapDel_self]

/-- Witness for claim C1 with two consumers (10 and 11) on BTC/USD:
one upstream register call after both subscribes, no unregister after
consumer 11 unsubscribes, exactly one unregister after consumer 10 also
unsubscribes. -/
theorem claim_C1_witness :
    registerCallsFor (subAll (jsStr "BTC/USD") svcConnected [10, 11]) (jsStr "ab") = 1 ∧
    unregisterCallsFor (unsubAll (jsStr "BTC/USD") (jsStr "ab")
        (subAll (jsStr "BTC/USD") svcConnected [10, 11]) [11]) (jsStr "ab") = 0 ∧
    unregisterCallsFor
      (runUnsubscribe (unsubAll (jsStr "BTC/USD") (jsStr "ab")
          (subAll (jsStr "BTC/USD") svcConnected [10, 11]) [11])
        ⟨jsStr "BTC/USD", jsStr "ab", 10⟩) (jsStr "ab") = 1 := by
  have h := claim_C1_refcount svcConnected fcConnEmpty (jsStr "BTC/USD") (jsStr "ab")
    10 10 [11] [11] rfl rfl rfl rfl (by decide) rfl rfl (by decide) (by decide)
  exact ⟨h.2.1, h.2.2.2.2.1, h.2.2.2.2.2.2.2.1⟩

/-- Claim C2: session cleanup. For a well-formed handler state — the
closed client's subscribed-pair set is duplicate-free, and each of its
pairs has a stored (session, pair) unsubscribe closure whose handle names
that pair and whose consumer is registered in the pair's duplicate-free
consumer set — handleDisconnect invokes exactly m closures (m = number of
active subscriptions), removes every stored (session, pair) entry, and
for every pair the session was subscribed to the consumer count drops by
exactly one and the session's consumer is no longer registered. -/
theorem claim_C2_session_cleanup (w : WSHandler) (cl : ClientState)
    (hnd : cl.subscribedPairs.Nodup)
    (hkeys : ∀ p ∈ cl.subscribedPairs,
      ∃ h, mapGet w.unsubscribeFunctions (cl.id, p) = some h ∧ h.pair = p ∧
        h.callback ∈ consumersOf w.svc p ∧ (consumersOf w.svc p).Nodup) :
    (handleDisconnect w cl).invoked.length =
      w.invoked.length + cl.subscribedPairs.length ∧
    (∀ p ∈ cl.subscribedPairs,
      mapGet (handleDisconnect w cl).unsubscribeFunctions (cl.id, p) = none) ∧
    (∀ p ∈ cl.subscribedPairs, ∀ h,
      mapGet w.unsubscribeFunctions (cl.id, p) = some h →
        (consumersOf (handleDisconnect w cl).svc p).length + 1 =
          (consumersOf w.svc p).length ∧
        h.callback ∉ consumersOf (handleDisconnect w cl).svc p) := by
  have hkeys' : ∀ p ∈ cl.subscribedPairs,
      ∃ h, mapGet w.unsubscribeFunctions (cl.id, p) = some h ∧ h.pair = p := by
    intro p hp
    obtain ⟨h, hk, hpr, _, _⟩ := hkeys p hp
    exact ⟨h, hk, hpr⟩
  obtain ⟨h1, h2, h3, _⟩ := disconnectAll_spec cl.id cl.subscribedPairs w hnd hkeys'
  refine ⟨h1, h2, ?_⟩
  intro p hp h hh
  obtain ⟨h', hk', _, hmem', hnd'⟩ := hkeys p hp
  have hhh : h = h' := Option.some.inj (hh.symm.trans hk')
  subst hhh
  have hcons := h3 p hp h hh
  rw [show handleDisconnect w cl = disconnectAll cl.id w cl.subscribedPairs from rfl]
  rw [hcons]
  exact ⟨setDelete_length _ _ hmem' hnd', not_mem_setDelete _ _⟩

/-- Witness for claim C2: client 1 with one stored subscription to
BTC/USD — the disconnect invokes the single stored closure, removes the
key, and consumer 5 is gone from the pair's consumer set. -/
theorem claim_C2_witness :
    (handleDisconnect wsOneClient clOne).invoked.length = 1 ∧
    (∀ p ∈ clOne.subscribedPairs,
      mapGet (handleDisconnect wsOneClient clOne).unsubscribeFunctions
        (clOne.id, p) = none) := by
  have hkeys : ∀ p ∈ clOne.subscribedPairs,
      ∃ h, mapGet wsOneClient.unsubscribeFunctions (clOne.id, p) = some h ∧
        h.pair = p ∧ h.callback ∈ consumersOf wsOneClient.svc p ∧
        (consumersOf wsOneClient.svc p).Nodup := by
    intro p hp
    have hp' : p = jsStr "BTC/USD" := by
      have : p ∈ [jsStr "BTC/USD"] := hp
      simpa using this
    subst hp'
    exact ⟨⟨jsStr "BTC/USD", jsStr "ab", 5⟩, by decide, rfl, by decide, by decide⟩
  have h := claim_C2_session_cleanup wsOneClient clOne (by decide) hkeys
  refine ⟨?_, h.2.1⟩
  have h1 := h.1
  simpa [wsOneClient, clOne] using h1

/-- Claim C4: invoking the unsubscribe handle returned by subscribe a
second time is a no-op: the second invocation returns the state of the
first unchanged — the pair's consumer set, the stored pyth callback, the
upstream client state and the ghost call logs are all untouched, so
nothing is decremented twice (and the closure cannot throw: it only uses
guarded lookups and optional chaining). -/
theorem claim_C4_unsubscribe_idempotent (svc : PriceFeedService) (h : Handle) :
    runUnsubscribe (runUnsubscribe svc h) h = runUnsubscribe svc h := by
  cases hml : mapGet svc.subscriptions h.pair with
  | none =>
      rw [runUnsubscribe_none svc h hml, runUnsubscribe_none svc h hml]
  | some cbs =>
      by_cases hE : setDelete cbs h.callback = []
      · cases hpcb : mapGet svc.callbacks h.pair with
        | none =>
            rw [runUnsubscribe_empty_none svc h cbs hml hE hpcb]
            exact runUnsubscribe_none _ h (mapGet_mapDel_self _ _)
        | some pcb =>
            rw [runUnsubscribe_empty_some svc h cbs pcb hml hE hpcb]
            exact runUnsubscribe_none _ h (mapGet_mapDel_self _ _)
      · rw [runUnsubscribe_nonempty svc h cbs hml hE]
        have hml2 :
            mapGet ({ svc with
                subscriptions :=
                  mapSet svc.subscriptions h.pair (setDelete cbs h.callback) } :
                PriceFeedService).subscriptions h.pair =
              some (setDelete cbs h.callback) := mapGet_mapSet_self _ _ _
        have hE2 : setDelete (setDelete cbs h.callback) h.callback ≠ [] := by
          rw [setDelete_idem]
          exact hE
        rw [runUnsubscribe_nonempty _ h _ hml2 hE2]
        simp [setDelete_idem, mapSet_mapSet]

/-- Counterexample to claim C9: unregistering the last listener while the
client is disconnected leaves the identifier in the bookkeeping map with
an empty listener list, sends no unsubscribe message, and a later
reconnect (open handler) re-subscribes the identifier although it has no
listeners. -/
theorem claim_C9_counterexample :
    mapGet (unregisterPriceFeedCallback fcDiscAB (jsStr "ab") 7).callbacks
      (jsStr "ab") = some [] ∧
    (unregisterPriceFeedCallback fcDiscAB (jsStr "ab") 7).sent = [] ∧
    WireMsg.subscribeIds [jsStr "ab"] ∈
      (onOpen (unregisterPriceFeedCallback fcDiscAB (jsStr "ab") 7)).sent := by decide

/-- Amended claim C9: unregisterCallback removes the first occurrence of
the listener; when the remaining list is empty AND the client is
currently connected, an upstream unsubscribe is sent and the identifier
is forgotten; when the list stays non-empty, or the client is not
connected, no message is sent and the (possibly empty) entry remains in
the map. -/
theorem claim_C9_unregister_spec (fc : FeedClient) (feedId : JStr) (cb : Nat)
    (cbs : List Nat)
    (hget : mapGet fc.callbacks (normalizeFeedId feedId) = some cbs) :
    (eraseFirst cbs cb = [] → isConnected fc = true →
        mapGet (unregisterPriceFeedCallback fc feedId cb).callbacks
          (normalizeFeedId feedId) = none ∧
        (unregisterPriceFeedCallback fc feedId cb).sent =
          fc.sent ++
            [WireMsg.unsubscribeIds [normalizeFeedId (normalizeFeedId feedId)]]) ∧
    (eraseFirst cbs cb ≠ [] →
        mapGet (unregisterPriceFeedCallback fc feedId cb).callbacks
          (normalizeFeedId feedId) = some (eraseFirst cbs cb) ∧
        (unregisterPriceFeedCallback fc feedId cb).sent = fc.sent) ∧
    (isConnected fc = false →
        mapGet (unregisterPriceFeedCallback fc feedId cb).callbacks
          (normalizeFeedId feedId) = some (eraseFirst cbs cb) ∧
        (unregisterPriceFeedCallback fc feedId cb).sent = fc.sent) := by
  refine ⟨?_, ?_, ?_⟩
  · intro hE hC
    have hws : fc.ws = some true := by simpa [isConnected] using hC
    simp [unregisterPriceFeedCallback, hget, hE, unsubscribeFromPriceFeeds,
      isConnected, hws, mapGet_mapDel_self]
  · intro hNE
    have hlen : ¬(eraseFirst cbs cb).length = 0 := by
      simpa [List.length_eq_zero] using hNE
    simp [unregisterPriceFeedCallback, hget, hlen, mapGet_mapSet_self]
  · intro hC
    have hws : ¬fc.ws = some true := by simpa [isConnected] using hC
    simp [unregisterPriceFeedCallback, hget, isConnected, hws, mapGet_mapSet_self]

/-- Witness for the amended claim C9: removing the last listener for ab
on a connected client sends the unsubscribe and forgets the identifier. -/
theorem claim_C9_witness :
    mapGet (unregisterPriceFeedCallback fcConnAB7 (jsStr "ab") 7).callbacks
      (normalizeFeedId (jsStr "ab")) = none ∧
    (unregisterPriceFeedCallback fcConnAB7 (jsStr "ab") 7).sent =
      fcConnAB7.sent ++
        [WireMsg.unsubscribeIds [normalizeFeedId (normalizeFeedId (jsStr "ab"))]] :=
  (claim_C9_unregister_spec fcConnAB7 (jsStr "ab") 7 [7] (by decide)).1
    (by decide) (by decide)

/-- Counterexample to claim C7: the one-shot snapshot fetch does not
normalize its identifiers — the request URL built for the 0x-prefixed
mixed-case variant differs from the URL built for the canonical form, so
a caller passing a variant does not observe the same behaviour there. -/
theorem claim_C7_counterexample :
    getLatestPriceUpdatesUrl [jsStr "0xAB"] ≠
      getLatestPriceUpdatesUrl [normalizeFeedId (jsStr "0xAB")] := by decide

/-- Amended claim C7: registration, unregistration, dispatch lookup and
the outbound subscribe/unsubscribe messages all apply the shared
normalization function first, so a 0x-prefixed or mixed-case identifier
behaves exactly like the canonical form at those boundaries; the one-shot
snapshot fetch is the exception and uses the identifier as passed. -/
theorem claim_C7_normalized_boundaries (fc : FeedClient) (cb : Nat) (c x : JStr)
    (hc : isCanonical c) (hx : isVariantOf x c) :
    registerPriceFeedCallback fc x cb = registerPriceFeedCallback fc c cb ∧
    unregisterPriceFeedCallback fc x cb = unregisterPriceFeedCallback fc c cb ∧
    dispatchTargets fc x = dispatchTargets fc c ∧
    subscribeToPriceFeeds fc [x] = subscribeToPriceFeeds fc [c] ∧
    unsubscribeFromPriceFeeds fc [x] = unsubscribeFromPriceFeeds fc [c] := by
  have hnorm : normalizeFeedId x = normalizeFeedId c := by
    rw [normalizeFeedId_of_variant c x hc hx,
      normalizeFeedId_of_variant c c hc (Or.inl hc.1)]
  refine ⟨?_, ?_, ?_, ?_, ?_⟩
  · unfold registerPriceFeedCallback
    rw [hnorm]
  · unfold unregisterPriceFeedCallback
    rw [hnorm]
  · unfold dispatchTargets
    rw [hnorm]
  · unfold subscribeToPriceFeeds
    dsimp only [List.map]
    rw [hnorm]
  · unfold unsubscribeFromPriceFeeds
    dsimp only [List.map]
    rw [hnorm]

/-- Witness for the amended claim C7 at the canonical id ab and its
variant 0xAB. -/
theorem claim_C7_witness :
    registerPriceFeedCallback fcConnEmpty (jsStr "0xAB") 4 =
      registerPriceFeedCallback fcConnEmpty (jsStr "ab") 4 ∧
    dispatchTargets fcConnAB (jsStr "0xAB") = dispatchTargets fcConnAB (jsStr "ab") := by
  have h1 := claim_C7_normalized_boundaries fcConnEmpty 4 (jsStr "ab") (jsStr "0xAB")
    ⟨by decide, by decide⟩ (Or.inr (by decide))
  have h2 := claim_C7_normalized_boundaries fcConnAB 4 (jsStr "ab") (jsStr "0xAB")
    ⟨by decide, by decide⟩ (Or.inr (by decide))
  exact ⟨h1.1, h2.2.2.1⟩

/-- Claim C10: whenever the service is not connected, subscribeToPair
throws the FeedClient-not-connected error for every pair — supported or
not — before any registry lookup or state change (the error result
carries no updated state). -/
theorem claim_C10_subscribe_requires_connected (svc : PriceFeedService)
    (pair : JStr) (cb : Nat) (h : svc.connected = false) :
    subscribeToPair svc pair cb = Except.error errNotConnected := by
  simp [subscribeToPair, h]

/-- Witness for claim C10: a service whose registry supports BTC/USD but
whose connected flag is false rejects the subscribe. -/
theorem claim_C10_witness :
    subscribeToPair svcDisconnected (jsStr "BTC/USD") 9 = Except.error errNotConnected ∧
    mapGet svcDisconnected.registry (jsStr "BTC/USD") = some (jsStr "ab") :=
  ⟨claim_C10_subscribe_requires_connected svcDisconnected (jsStr "BTC/USD") 9 rfl,
   by decide⟩

end PriceFeed
